import Mathlib

/-!
# Verification of the bibtox citation-formatting engine

A shallow embedding of the two renderer scripts of the repository,
`bib2html.py` (the current engine) and `render_bibs.py` (the earlier
variant), together with theorems settling the frozen claims about the
specification.  Python strings are modelled as Lean `String`s with the
relevant Python operations (`split`, `strip`, `lower`, `replace`)
re-implemented over `List Char`; Python code that can raise is modelled
in `Option`, with `none` standing for an uncaught exception.  The yattag
`Doc` is modelled as a list of markup nodes: `doc.text` and `doc.asis`
become `Node.text`/`Node.asis` and `doc.tag` becomes `Node.elem`.
-/

/-! ## Python string primitives -/

/-- Python `s.split(sep)` for a one-character separator: keeps empty parts. -/
def splitOnChar (sep : Char) : List Char → List (List Char)
  | [] => [[]]
  | c :: cs =>
    if c = sep then [] :: splitOnChar sep cs
    else
      match splitOnChar sep cs with
      | [] => [[c]]
      | t :: ts => (c :: t) :: ts

/-- Split on every character satisfying `p`, keeping empty parts. -/
def splitOnPred (p : Char → Bool) : List Char → List (List Char)
  | [] => [[]]
  | c :: cs =>
    if p c then [] :: splitOnPred p cs
    else
      match splitOnPred p cs with
      | [] => [[c]]
      | t :: ts => (c :: t) :: ts

/-- Python `s.split(sep)` on strings, single-character separator. -/
def pySplit (sep : Char) (s : String) : List String :=
  (splitOnChar sep s.data).map String.mk

/-- Python `s.split()` with no argument: split on whitespace runs, dropping
empty parts. -/
def pySplitWs (s : String) : List String :=
  ((splitOnPred Char.isWhitespace s.data).map String.mk).filter (· ≠ "")

/-- Python `s.strip()`: drop whitespace from both ends. -/
def pyStrip (s : String) : String :=
  String.mk (((s.data.dropWhile Char.isWhitespace).reverse.dropWhile
    Char.isWhitespace).reverse)

/-- Python `s.lower()` (ASCII behaviour suffices here). -/
def pyLower (s : String) : String :=
  String.mk (s.data.map Char.toLower)

/-- Python `" ".join`-style join. -/
def pyJoin (sep : String) (xs : List String) : String :=
  String.intercalate sep xs

/-- Python `c.strip()` on a one-character string, as in
`author.first[0][0].strip()`: a whitespace character strips to `""`. -/
def charStrip (c : Char) : String :=
  if c.isWhitespace then "" else String.mk [c]

/-- Python `dict.get` over an association list (the `HOMEPAGES` mapping). -/
def lookupKey (m : List (String × String)) (k : String) : Option String :=
  match m with
  | [] => none
  | p :: rest => if p.1 = k then some p.2 else lookupKey rest k

/-- Python `str.replace("..", ".")` specialised: collapse every
non-overlapping occurrence of two consecutive periods, left to right. -/
def collapseDots : List Char → List Char
  | '.' :: '.' :: rest => '.' :: collapseDots rest
  | c :: rest => c :: collapseDots rest
  | [] => []

/-- Whether a character list contains two adjacent periods. -/
def hasDD : List Char → Bool
  | '.' :: '.' :: _ => true
  | _ :: rest => hasDD rest
  | [] => false

/-! ## Data model -/

/-- A parsed author name as produced by the upstream `SplitNameParts`
middleware: ordered given-name tokens and family-name tokens. -/
structure Person where
  first : List String
  last : List String
deriving Repr, DecidableEq

/-- A parsed bibliographic entry: the entry-type tag, the citation key and
the optional named fields the renderers read.  `none` models an absent
field; `bib.get(name)` returning `None`, or `bib[name]` / `.value`
raising, is modelled by `Option` plumbing at each use site. -/
structure Record where
  entry_type : String
  key : String
  author : Option (List Person) := none
  title : Option String := none
  year : Option String := none
  month : Option String := none
  date : Option String := none
  issue_date : Option String := none
  journaltitle : Option String := none
  journal : Option String := none
  booktitle : Option String := none
  volume : Option String := none
  number : Option String := none
  pages : Option String := none
  address : Option String := none
  institution : Option String := none
  eprinttype : Option String := none
  publisher : Option String := none
  doi : Option String := none
  url : Option String := none
  note : Option String := none
deriving Repr, DecidableEq

/-- A yattag markup node: `doc.text` (escaped text), `doc.asis` (raw
markup), or a tag with attributes and children. -/
inductive Node where
  | text (s : String)
  | asis (s : String)
  | elem (tag : String) (attrs : List (String × String)) (children : List Node)

mutual

/-- Serialize one node to its markup bytes (text escaping is the identity
on the character sets these records use). -/
def Node.toStr : Node → String
  | .text s => s
  | .asis s => s
  | .elem t attrs cs =>
      "<" ++ t ++ String.join (attrs.map fun p => " " ++ p.1 ++ "=\"" ++ p.2 ++ "\"")
        ++ ">" ++ nodesToStr cs ++ "</" ++ t ++ ">"

/-- Serialize a node list. -/
def nodesToStr : List Node → String
  | [] => ""
  | n :: ns => n.toStr ++ nodesToStr ns

end

/-- The children of an `elem` node (the contents of a wrapper span). -/
def spanChildren : Node → List Node
  | .elem _ _ cs => cs
  | _ => []

/-- The `text` nodes among a list of siblings: in an authors span these are
exactly the separators emitted between author spans. -/
def topTexts (ns : List Node) : List Node :=
  ns.filter fun n => match n with | .text _ => true | _ => false

/-- Whether a node is a `<span>` whose sole attribute is `class=k`. -/
def isClassSpan (k : String) : Node → Bool
  | .elem "span" [("class", c)] _ => c == k
  | _ => false

/-- How many top-level `<span class=k>` wrappers a node list contains. -/
def spanCount (ns : List Node) (k : String) : Nat :=
  ns.countP (isClassSpan k)

/-- The `class` attribute of a node, when it is a tag. -/
def getClass : Node → Option String
  | .elem _ attrs _ => lookupKey attrs "class"
  | _ => none

/-! ## The author formatter (`bib2html.py`, `authors`, lines 27-51) -/

/-- The configured highlighted identity compared against
`(author.first[0], author.last[0])` at `bib2html.py:42`. -/
def highlightIdentity : String × String := ("Richard", "Mortier")

/-- `bibtexparser`'s `NameParts.merge_last_name_first` display property.
Modelled from the spec: the library is an external collaborator not under
`src/`; the spec describes the display form as the family name(s) in full,
family-name-first, followed by the given name(s). -/
def mergeLastNameFirst (p : Person) : String :=
  pyJoin " " p.last ++ ", " ++ pyJoin " " p.first

/-- One iteration of the author loop of `bib2html.py:38-51`, separator
aside: build the homepage key from `first[0]` and `last[0]`, decide the
highlight class, overwrite `author.first` with the collapsed initial
(line 45), and emit the author `<span>`, hyperlinked when the key is in
the homepage mapping.  `none` models the `IndexError` raised when a name
list is empty or the first given-name token is the empty string. -/
def authorSpan (hp : List (String × String)) (a : Person) :
    Option (Node × Person) := do
  let f0 ← a.first.head?
  let l0 ← a.last.head?
  let homepage := lookupKey hp (f0 ++ " " ++ l0)
  let klass := if (f0, l0) = highlightIdentity then "author highlight" else "author"
  let c ← f0.data.head?
  let a' : Person := ⟨[charStrip c ++ "."], a.last⟩
  let nm := mergeLastNameFirst a'
  let body := match homepage with
    | some u => [Node.elem "a" [("href", u)] [Node.text nm]]
    | none => [Node.text nm]
  pure (Node.elem "span" [("class", klass)] body, a')

/-- The separator `doc.text` emitted before author `i` of `n`
(`bib2html.py:31-36`): nothing before author 0, `" and "` before the
last author, `", "` otherwise. -/
def sepNodes (i n : Nat) : List Node :=
  if i = 0 then [] else if i + 1 = n then [Node.text " and "] else [Node.text ", "]

/-- The body of the authors span: the separator and author span of each
author in order, threading the mutated `Person`s. -/
def authorsChunks (hp : List (String × String)) (n : Nat) :
    Nat → List Person → Option (List Node × List Person)
  | _, [] => some ([], [])
  | i, a :: rest => do
    let (nd, a') ← authorSpan hp a
    let (ns, rest') ← authorsChunks hp n (i + 1) rest
    pure (sepNodes i n ++ [nd] ++ ns, a' :: rest')

/-- `authors(doc, bib)` of `bib2html.py`: the `<span class="authors">`
wrapper around the separated author spans, returning also the author
list as mutated by the loop. -/
def authorsRun (hp : List (String × String)) (as : List Person) :
    Option (Node × List Person) :=
  (authorsChunks hp as.length 0 as).map fun p =>
    (Node.elem "span" [("class", "authors")] p.1, p.2)

/-! ## The author formatter of `render_bibs.py` (`html`, lines 47-60) -/

/-- One author span of `render_bibs.py:53-58`: same highlight comparison
and destructive initials truncation, but no homepage lookup. -/
def rbAuthorSpan (a : Person) : Option (Node × Person) := do
  let f0 ← a.first.head?
  let l0 ← a.last.head?
  let klass := if (f0, l0) = highlightIdentity then "author highlight" else "author"
  let c ← f0.data.head?
  let a' : Person := ⟨[charStrip c ++ "."], a.last⟩
  pure (Node.elem "span" [("class", klass)] [Node.text (mergeLastNameFirst a')], a')

/-- The author loop of `render_bibs.py:49-60`: `" and "` is emitted before
author `i` whenever `i + 1 = n` (also when `n = 1`), and `", "` is
emitted after author `i` whenever `i + 1 < n`. -/
def rbChunks (n : Nat) : Nat → List Person → Option (List Node × List Person)
  | _, [] => some ([], [])
  | i, a :: rest => do
    let (nd, a') ← rbAuthorSpan a
    let (ns, rest') ← rbChunks n (i + 1) rest
    pure ((if i + 1 = n then [Node.text " and "] else []) ++ [nd]
      ++ (if i + 1 < n then [Node.text ", "] else []) ++ ns, a' :: rest')

/-- The `<span class="authors">` block of `render_bibs.py`. -/
def rbAuthorsRun (as : List Person) : Option (Node × List Person) :=
  (rbChunks as.length 0 as).map fun p =>
    (Node.elem "span" [("class", "authors")] p.1, p.2)

/-! ## Date normalization (`bib2html.py`, `parse_date`, lines 54-107) -/

/-- The month dictionary of `bib2html.py:74-100`, looked up after
`.lower().strip()`; `none` models the `KeyError` on an unknown code.
The value for `"02"` is the source's spelling. -/
def monthTable (s : String) : Option String :=
  match s with
  | "" => some ""
  | "01" => some "January"
  | "jan" => some "January"
  | "02" => some "Feburary"
  | "feb" => some "February"
  | "03" => some "March"
  | "mar" => some "March"
  | "04" => some "April"
  | "apr" => some "April"
  | "05" => some "May"
  | "may" => some "May"
  | "06" => some "June"
  | "jun" => some "June"
  | "07" => some "July"
  | "jul" => some "July"
  | "08" => some "August"
  | "aug" => some "August"
  | "09" => some "September"
  | "sep" => some "September"
  | "10" => some "October"
  | "oct" => some "October"
  | "11" => some "November"
  | "nov" => some "November"
  | "12" => some "December"
  | "dec" => some "December"
  | _ => none

/-- Lines 74-107 of `bib2html.py`, shared by the `date` and the
`year`/`month` branches: resolve the month code through the table and
assemble the display string, returning `(date, year, month)`. -/
def finishDate (y m d : String) : Option (String × String × String) :=
  match monthTable (pyStrip (pyLower m)) with
  | none => none
  | some mn =>
      if mn = "" then some (y, y, mn)
      else some (d ++ " " ++ mn ++ ", " ++ y, y, mn)

/-- Lines 64-67 of `bib2html.py`: unpack `date.split("-")` into three
components; on failure retry `date.split()`; `none` models the
uncaught `ValueError` when neither split yields exactly three parts. -/
def splitDateField (s : String) : Option (String × String × String) :=
  match pySplit '-' s with
  | [y, m, d] => some (y, m, d)
  | _ =>
    match pySplitWs s with
    | [y, m, d] => some (y, m, d)
    | _ => none

/-- `parse_date(bib)` of `bib2html.py:54-107`, returning
`(date display, year, month)`; `none` models any uncaught exception. -/
def parse_date (r : Record) : Option (String × String × String) :=
  match r.issue_date with
  | some s =>
    match pySplit ' ' s with
    | [m, y] => some (s, y, m)
    | _ => none
  | none =>
    match r.date with
    | some s =>
      match splitDateField s with
      | some (y, m, d) => finishDate y m d
      | none => none
    | none =>
      match r.year with
      | none => none
      | some y =>
        let parts := pySplit '#' ((r.month).getD "")
        finishDate y (parts.headD "") (pyStrip (pyJoin " " parts.tail))

/-! ## Venue resolution (`bib2html.py`, `venue`, lines 128-191) -/

/-- The venue dispatch of `bib2html.py:128-185` as a
`(lead "In", venue text, addendum)` triple; `none` models the
`KeyError`/`AttributeError` raised when the branch's venue field chain
finds nothing. -/
def venueCore (r : Record) : Option (Bool × String × String) :=
  match r.entry_type with
  | "inproceedings" =>
      (r.booktitle).map fun v => (true, v,
        (match r.address with | some a => ". " ++ a | none => "")
        ++ (match r.pages with | some p => ". pp.&nbsp;" ++ p | none => ""))
  | "article" =>
      (r.journaltitle <|> r.journal).map fun v => (true, v,
        (match r.volume with | some x => "&nbsp;" ++ x | none => "")
        ++ (match r.number with | some x => "(" ++ x ++ ")" | none => "")
        ++ (match r.pages with | some x => ":" ++ x | none => ""))
  | "patent" => some (false, "Patent", "")
  | "online" => (r.eprinttype <|> r.institution <|> r.publisher).map fun v => (true, v, "")
  | "report" => (r.eprinttype <|> r.institution <|> r.publisher).map fun v => (true, v, "")
  | "misc" => (r.eprinttype <|> r.institution <|> r.publisher).map fun v => (true, v, "")
  | "inbook" => (r.volume <|> r.booktitle).map fun v => (true, v, "")
  | "unpublished" => some (false, "", "")
  | _ => some (false, "UNKNOWN VENUE", "")

/-- The markup emitted by `venue(doc, bib)`: the optional leading
`"In "`, the `<span class="venue">` with the stripped venue text, and
the addendum terminated by `". "` when non-empty (lines 187-191). -/
def venueNodes (r : Record) : Option (List Node) :=
  (venueCore r).map fun t =>
    (if t.1 then [Node.text "In "] else [])
    ++ [Node.elem "span" [("class", "venue")] [Node.asis (pyStrip t.2.1)]]
    ++ (if t.2.2 ≠ "" then [Node.asis (t.2.2 ++ ". ")] else [])

/-- The entry-type tags `venue` dispatches on explicitly (every other tag
falls to the catch-all sentinel branch). -/
def knownEntryTypes : List String :=
  ["inproceedings", "article", "patent", "online", "report", "misc",
   "inbook", "unpublished"]

/-- The implicit field-presence precondition of each `venue` branch: the
branch's venue field chain must resolve for the lookup not to raise. -/
def venueFieldsOk (r : Record) : Prop :=
  match r.entry_type with
  | "inproceedings" => r.booktitle.isSome = true
  | "article" => (r.journaltitle <|> r.journal).isSome = true
  | "online" => (r.eprinttype <|> r.institution <|> r.publisher).isSome = true
  | "report" => (r.eprinttype <|> r.institution <|> r.publisher).isSome = true
  | "misc" => (r.eprinttype <|> r.institution <|> r.publisher).isSome = true
  | "inbook" => (r.volume <|> r.booktitle).isSome = true
  | _ => True

/-! ## The remaining elements of one entry (`bib2html.py`, lines 110-219) -/

/-- `year(doc, year)`, lines 110-112. -/
def yearNodes (y : String) : List Node :=
  [Node.elem "span" [("class", "year")] [Node.text (" (" ++ y ++ ") ")]]

/-- `title(doc, bib)` body, lines 115-118 (the title value is required). -/
def titleNodes (t : String) : List Node :=
  [Node.elem "span" [("class", "title")]
    [Node.asis ("&ldquo;" ++ t ++ "&rdquo;. ")]]

/-- `publisher(doc, bib)`, lines 121-125: the whole `<span>` is guarded by
the presence of the field, so an absent publisher emits no wrapper. -/
def publisherNodes (r : Record) : List Node :=
  match r.publisher with
  | some p => [Node.elem "span" [("class", "publisher")]
      [Node.text (" " ++ pyStrip p ++ " ")]]
  | none => []

/-- `date(doc, date)`, lines 194-196. -/
def dateNodes (d : String) : List Node :=
  [Node.elem "span" [("class", "date")] [Node.text (d ++ ". ")]]

/-- The note text of `bib2html.py:203`:
`f"{note.value.strip()}. ".replace("..", ".")`. -/
def noteText (v : String) : String :=
  String.mk (collapseDots (pyStrip v ++ ". ").data)

/-- `note(doc, bib)`, lines 199-203: the wrapper is always emitted, the
text only when the field is present. -/
def noteNodes (r : Record) : List Node :=
  [Node.elem "span" [("class", "note")]
    (match r.note with
     | some v => [Node.text (noteText v)]
     | none => [])]

/-- `doi(doc, bib)`, lines 206-211. -/
def doiNodes (r : Record) : List Node :=
  [Node.elem "span" [("class", "doi")]
    (match r.doi with
     | some v => [Node.elem "a" [("href", v)] [Node.asis ("doi:" ++ v ++ " ")]]
     | none => [])]

/-- `url(doc, bib)`, lines 214-219. -/
def urlNodes (r : Record) : List Node :=
  [Node.elem "span" [("class", "url")]
    (match r.url with
     | some v => [Node.elem "a" [("href", v)] [Node.asis v]]
     | none => [])]

/-- The `Entry` branch of `html(bib, doc)` in `bib2html.py:241-258`: the
nine elements in orchestration order, threading the author-list mutation
back into the record; `none` models the logged-and-reraised exception. -/
def renderEntry (hp : List (String × String)) (r : Record) :
    Option (List Node × Record) := do
  let (d, y, _m) ← parse_date r
  let as ← r.author
  let (an, as') ← authorsRun hp as
  let t ← r.title
  let vns ← venueNodes r
  pure ([an] ++ yearNodes y ++ titleNodes t ++ vns ++ publisherNodes r
    ++ dateNodes d ++ noteNodes r ++ doiNodes r ++ urlNodes r,
    { r with author := some as' })

/-! ## The date handling of `render_bibs.py` (`html`, lines 70-99) -/

/-- The month dictionary of `render_bibs.py:83-97`: abbreviations only,
looked up after `.strip()` with no `.lower()` and no numeric codes. -/
def rbMonthTable (s : String) : Option String :=
  match s with
  | "" => some ""
  | "jan" => some "January"
  | "feb" => some "February"
  | "mar" => some "March"
  | "apr" => some "April"
  | "may" => some "May"
  | "jun" => some "June"
  | "jul" => some "July"
  | "aug" => some "August"
  | "sep" => some "September"
  | "oct" => some "October"
  | "nov" => some "November"
  | "dec" => some "December"
  | _ => none

/-- The date display computed by `render_bibs.py:70-99`: the raw
`issue_date` if present; else `date.split("-")` unpacked into three
parts with no whitespace retry (line 77); else the discrete
`year`/`month` fields; the non-`issue_date` branches rejoin as
`" ".join([day, month, year])` (line 99). -/
def rbDateNorm (r : Record) : Option String :=
  match r.issue_date with
  | some s => some s
  | none =>
    match r.date with
    | some s =>
      match pySplit '-' s with
      | [y, m, d] => some (pyJoin " " [d, m, y])
      | _ => none
    | none =>
      match r.year with
      | none => none
      | some y =>
        let parts := pySplit '#' ((r.month).getD "")
        let day := pyStrip (pyJoin " " parts.tail)
        match rbMonthTable (pyStrip (parts.headD "")) with
        | none => none
        | some mn => some (pyJoin " " [day, mn, y])

/-! ## Claim-statement helpers -/

/-- The first character of the first given-name token. -/
def firstInitChar (a : Person) : Option Char :=
  (a.first.head?).bind fun s => s.data.head?

/-- Modelled from the spec's words for the highlight/lookup identity of
§4.3: the pair (first letter of the first given-name token, first
family-name token).  Used only to compare the claimed highlight
condition with the one in the source. -/
def specInitialFamilyPair (a : Person) : Option (String × String) :=
  match firstInitChar a, a.last.head? with
  | some c, some l => some (String.mk [c], l)
  | _, _ => none

/-- A record with no optional fields, for concrete instances. -/
def emptyRecord : Record := { entry_type := "misc", key := "k" }

/-- A concrete journal article used as a witness input: all required
fields present, a publisher present. -/
def witRecord : Record := { emptyRecord with
  entry_type := "article",
  author := some [⟨["Ada"], ["Lovelace"]⟩],
  title := some "T",
  year := some "2021",
  journal := some "J. Sys",
  publisher := some "ACM" }

/-- The node list `renderEntry` produces for `witRecord`. -/
def c7ns : List Node :=
  [Node.elem "span" [("class", "authors")]
    [Node.elem "span" [("class", "author")] [Node.text "Lovelace, A."]]]
  ++ yearNodes "2021" ++ titleNodes "T"
  ++ [Node.text "In ", Node.elem "span" [("class", "venue")] [Node.asis "J. Sys"]]
  ++ publisherNodes witRecord ++ dateNodes "2021" ++ noteNodes witRecord
  ++ doiNodes witRecord ++ urlNodes witRecord

/-- The implicit author-formatter precondition of both renderers: a name
violates it when a name-token list is empty or the first given-name
token is the empty string. -/
def badPerson (a : Person) : Prop :=
  a.first = [] ∨ a.last = [] ∨ a.first.head? = some ""

/-! ## Helper lemmas -/

theorem topTexts_append (xs ys : List Node) :
    topTexts (xs ++ ys) = topTexts xs ++ topTexts ys :=
  List.filter_append _ _

theorem topTexts_sepNodes (i n : Nat) : topTexts (sepNodes i n) = sepNodes i n := by
  unfold sepNodes
  split
  · rfl
  · split <;> rfl

theorem topTexts_elem (t : String) (attrs : List (String × String))
    (cs : List Node) : topTexts [Node.elem t attrs cs] = [] := rfl

theorem authorSpan_eq (hp : List (String × String)) (a : Person)
    (f0 l0 : String) (c : Char) (hf : a.first.head? = some f0)
    (hl : a.last.head? = some l0) (hc : f0.data.head? = some c) :
    authorSpan hp a = some (Node.elem "span"
      [("class", if (f0, l0) = highlightIdentity then "author highlight" else "author")]
      (match lookupKey hp (f0 ++ " " ++ l0) with
       | some u => [Node.elem "a" [("href", u)]
           [Node.text (mergeLastNameFirst ⟨[charStrip c ++ "."], a.last⟩)]]
       | none => [Node.text (mergeLastNameFirst ⟨[charStrip c ++ "."], a.last⟩)]),
      ⟨[charStrip c ++ "."], a.last⟩) := by
  simp [authorSpan, hf, hl, hc]

theorem authorSpan_none_iff (hp : List (String × String)) (a : Person) :
    authorSpan hp a = none ↔ badPerson a := by
  unfold badPerson
  cases hfl : a.first with
  | nil => simp [authorSpan, hfl]
  | cons f0 frest =>
    cases hll : a.last with
    | nil => simp [authorSpan, hfl, hll]
    | cons l0 lrest =>
      cases f0 with
      | mk fdata =>
        cases fdata with
        | nil => simp [authorSpan, hfl, hll, String.ext_iff]
        | cons c crest => simp [authorSpan, hfl, hll, String.ext_iff]

/-! ## Counterexamples and concrete evaluations -/

/-- Counterexample to claim C1 as stated: in `render_bibs.py` a list with
exactly one author renders with a `" and "` separator text emitted
before the lone author, so "with exactly one author no separator is
emitted" fails on that renderer. -/
theorem c1_single_author_sep_render_bibs :
    (rbAuthorsRun [⟨["Jane"], ["Doe"]⟩]).map (fun p => topTexts (spanChildren p.1))
      = some [Node.text " and "] ∧
    ([(⟨["Jane"], ["Doe"]⟩ : Person)]).length = 1 :=
  ⟨rfl, rfl⟩

/-- Counterexample to claim C2 as stated: rendering the author list of a
record whose author is the highlighted identity twice yields different
markup bytes, because the first render overwrites `author.first` with
the collapsed initial and the highlight comparison then fails. -/
theorem c2_double_render_differs :
    (authorsRun [] [⟨["Richard"], ["Mortier"]⟩]).map (fun p => p.1.toStr)
      = some "<span class=\"authors\"><span class=\"author highlight\">Mortier, R.</span></span>" ∧
    ((authorsRun [] [⟨["Richard"], ["Mortier"]⟩]).bind
        (fun p => authorsRun [] p.2)).map (fun p => p.1.toStr)
      = some "<span class=\"authors\"><span class=\"author\">Mortier, R.</span></span>" ∧
    ("<span class=\"authors\"><span class=\"author highlight\">Mortier, R.</span></span>" : String)
      ≠ "<span class=\"authors\"><span class=\"author\">Mortier, R.</span></span>" :=
  ⟨rfl, rfl, by decide⟩

/-- Counterexample to claim C3 as stated: the author whose full first
given-name token is "Richard" is highlighted by the source, yet the pair
(first-initial of the first given-name token, first family-name token)
is ("R", "Mortier"), which does not equal the configured identity
("Richard", "Mortier"); under the claimed condition this author would
never be highlighted. -/
theorem c3_highlight_full_name_not_initial :
    (authorSpan [] ⟨["Richard"], ["Mortier"]⟩).map (fun p => getClass p.1)
      = some (some "author highlight") ∧
    specInitialFamilyPair ⟨["Richard"], ["Mortier"]⟩ = some ("R", "Mortier") ∧
    ¬ (("R", "Mortier") = highlightIdentity) :=
  ⟨rfl, rfl, by decide⟩

/-- Counterexample to claim C4 as stated: an `inproceedings` record with
no `booktitle` field makes `venue` raise (`bib["booktitle"]` KeyError)
instead of yielding a triple, although `inproceedings` is a recognized
tag. -/
theorem c4_inproceedings_missing_booktitle :
    venueCore { emptyRecord with entry_type := "inproceedings" } = none :=
  rfl

/-- Claim C5, evaluation at the failing input: the source month table maps
the two-digit code "02" to the misspelled "Feburary" while the
abbreviation "feb" maps to "February", so the two codes of February do
not resolve to the same full month name; every other month's pair
agrees.  The last two conjuncts show the divergence at the `parse_date`
level on otherwise identical records. -/
theorem c5_month_table_feburary :
    monthTable "02" = some "Feburary" ∧
    monthTable "feb" = some "February" ∧
    monthTable "02" ≠ monthTable "feb" ∧
    parse_date { emptyRecord with year := some "2021", month := some "02" }
      = some (" Feburary, 2021", "2021", "Feburary") ∧
    parse_date { emptyRecord with year := some "2021", month := some "feb" }
      = some (" February, 2021", "2021", "February") :=
  ⟨rfl, rfl, by decide, rfl, rfl⟩

/-- Counterexample to claim C6 as stated: `render_bibs.py` splits a
present `date` field on `-` only (line 77) and raises without retrying
a whitespace split, although the whitespace split of "2020 01 02" has
exactly three components and the claimed retry would have succeeded. -/
theorem c6_render_bibs_no_ws_retry :
    rbDateNorm { emptyRecord with date := some "2020 01 02" } = none ∧
    (pySplitWs "2020 01 02").length = 3 :=
  ⟨rfl, by decide⟩

/-- Counterexample to claim C7 as stated: a record whose `publisher` field
is absent renders with no `<span class="publisher">` wrapper at all
(the span of `bib2html.py:121-125` is created only inside the presence
guard), not with an empty wrapper. -/
theorem c7_publisher_wrapper_omitted :
    (renderEntry [] { emptyRecord with
        entry_type := "article",
        author := some [⟨["Ada"], ["Lovelace"]⟩],
        title := some "T",
        year := some "2021",
        journal := some "J. Sys" }).map
      (fun p => spanCount p.1 "publisher") = some 0 ∧
    ({ emptyRecord with
        entry_type := "article",
        author := some [⟨["Ada"], ["Lovelace"]⟩],
        title := some "T",
        year := some "2021",
        journal := some "J. Sys" } : Record).publisher = none :=
  ⟨rfl, rfl⟩

/-- Counterexample to claim C8 as stated: a note value with an interior
double period is not emitted unchanged away from the end; the
`replace("..", ".")` of `bib2html.py:203` collapses the interior pair
too, so the rendered text differs from trimmed-value-plus-period. -/
theorem c8_note_interior_dots_collapsed :
    noteText "a..b" = "a.b. " ∧ noteText "a..b" ≠ pyStrip "a..b" ++ ". " :=
  ⟨rfl, by decide⟩

/-! ## Claim C9: the issue_date branch -/

/-- Claim C9: for every record with a present `issue_date` field, whenever
`parse_date` returns, the display string is the raw field value
unchanged, and the month and year are exactly the two tokens of the raw
value split on a space — the month is not passed through the month-name
table and no day/month/year reassembly occurs. -/
theorem c9_issue_date_raw (r : Record) (s d y m : String)
    (hs : r.issue_date = some s) (h : parse_date r = some (d, y, m)) :
    d = s ∧ pySplit ' ' s = [m, y] := by
  rcases hE : pySplit ' ' s with _ | ⟨t1, _ | ⟨t2, _ | ⟨t3, rest⟩⟩⟩ <;>
    simp [parse_date, hs, hE] at h <;> simp_all

/-- Witness for C9 at a concrete record: `issue_date = "March 2020"`
yields the raw value as display with month "March" and year "2020". -/
theorem c9_issue_date_raw_witness :
    ("March 2020" : String) = "March 2020" ∧
    pySplit ' ' "March 2020" = ["March", "2020"] :=
  c9_issue_date_raw { emptyRecord with issue_date := some "March 2020" }
    "March 2020" "March 2020" "2020" "March" rfl rfl

/-! ## Claim C6: the date-field branch -/

theorem splitDateField_dash (s y m d : String) (h : pySplit '-' s = [y, m, d]) :
    splitDateField s = some (y, m, d) := by
  simp [splitDateField, h]

theorem splitDateField_ws (s y m d : String)
    (h1 : (pySplit '-' s).length ≠ 3) (h2 : pySplitWs s = [y, m, d]) :
    splitDateField s = some (y, m, d) := by
  rcases hE : pySplit '-' s with _ | ⟨t1, _ | ⟨t2, _ | ⟨t3, rest⟩⟩⟩ <;>
    simp [splitDateField, hE, h2] <;> simp_all

theorem splitDateField_fail (s : String)
    (h1 : (pySplit '-' s).length ≠ 3) (h2 : (pySplitWs s).length ≠ 3) :
    splitDateField s = none := by
  rcases hE : pySplit '-' s with _ | ⟨t1, _ | ⟨t2, _ | ⟨t3, rest⟩⟩⟩ <;>
    rcases hW : pySplitWs s with _ | ⟨u1, _ | ⟨u2, _ | ⟨u3, wrest⟩⟩⟩ <;>
    simp [splitDateField, hE, hW] <;> simp_all

/-- Claim C6 (amended to `bib2html.py`'s `parse_date`; `render_bibs.py`
has no whitespace retry, see the counterexample): with no `issue_date`
and a present `date` field, the field is split on `-`; exactly three
components continue into month resolution and assembly; otherwise a
whitespace split is retried and, when it has exactly three components,
those continue; when neither split yields exactly three components the
renderer raises (returns `none`) rather than guessing. -/
theorem c6_date_split_retry (r : Record) (s : String)
    (h1 : r.issue_date = none) (h2 : r.date = some s) :
    (∀ y m d, pySplit '-' s = [y, m, d] → parse_date r = finishDate y m d) ∧
    ((pySplit '-' s).length ≠ 3 →
      ∀ y m d, pySplitWs s = [y, m, d] → parse_date r = finishDate y m d) ∧
    ((pySplit '-' s).length ≠ 3 → (pySplitWs s).length ≠ 3 →
      parse_date r = none) := by
  refine ⟨fun y m d hd => ?_, fun hne y m d hw => ?_, fun hne hnw => ?_⟩
  · simp [parse_date, h1, h2, splitDateField_dash s y m d hd]
  · simp [parse_date, h1, h2, splitDateField_ws s y m d hne hw]
  · simp [parse_date, h1, h2, splitDateField_fail s hne hnw]

/-- Witness for C6: spec Scenario C, a `date` field of `"2020"` alone:
neither split yields three components, so `parse_date` raises. -/
theorem c6_date_split_retry_witness :
    parse_date { emptyRecord with date := some "2020" } = none :=
  (c6_date_split_retry { emptyRecord with date := some "2020" } "2020"
    rfl rfl).2.2 (by decide) (by decide)


/-! ## Claim C3: the highlight condition -/

/-- Claim C3 (amended: the source compares the full first given-name
token, not its first initial): the rendered author wrapper carries the
`highlight` class marker if and only if the pair (first given-name
token, first family-name token) equals the configured highlighted
identity. -/
theorem c3_highlight_condition (hp : List (String × String)) (a : Person)
    (nd : Node) (a' : Person) (h : authorSpan hp a = some (nd, a')) :
    getClass nd = some "author highlight" ↔
      (a.first.head? = some highlightIdentity.1 ∧
       a.last.head? = some highlightIdentity.2) := by
  cases hf : a.first.head? with
  | none => simp [authorSpan, hf] at h
  | some f0 =>
    cases hl : a.last.head? with
    | none => simp [authorSpan, hf, hl] at h
    | some l0 =>
      cases hc : f0.data.head? with
      | none => simp [authorSpan, hf, hl, hc] at h
      | some c =>
        rw [authorSpan_eq hp a f0 l0 c hf hl hc] at h
        simp only [Option.some.injEq, Prod.mk.injEq] at h
        obtain ⟨hnd, ha'⟩ := h
        subst hnd
        by_cases hid : (f0, l0) = highlightIdentity
        · refine iff_of_true ?_ ?_
          · simp [getClass, lookupKey, hid]
          · have h1 : f0 = highlightIdentity.1 := congrArg Prod.fst hid
            have h2 : l0 = highlightIdentity.2 := congrArg Prod.snd hid
            exact ⟨h1 ▸ rfl, h2 ▸ rfl⟩
        · refine iff_of_false ?_ ?_
          · simp [getClass, lookupKey, hid]
          · rintro ⟨h1, h2⟩
            apply hid
            simp only [Option.some.injEq] at h1 h2
            exact Prod.ext h1 h2

/-- Witness for C3 at the concrete highlighted author. -/
theorem c3_highlight_condition_witness :
    getClass (Node.elem "span" [("class", "author highlight")]
        [Node.text "Mortier, R."]) = some "author highlight" ↔
      ((["Richard"] : List String).head? = some highlightIdentity.1 ∧
       (["Mortier"] : List String).head? = some highlightIdentity.2) :=
  c3_highlight_condition [] ⟨["Richard"], ["Mortier"]⟩
    (Node.elem "span" [("class", "author highlight")] [Node.text "Mortier, R."])
    ⟨["R."], ["Mortier"]⟩ rfl

/-! ## Claim C10: the implicit author precondition -/

theorem rbAuthorSpan_none_iff (a : Person) :
    rbAuthorSpan a = none ↔ badPerson a := by
  unfold badPerson
  cases hfl : a.first with
  | nil => simp [rbAuthorSpan, hfl]
  | cons f0 frest =>
    cases hll : a.last with
    | nil => simp [rbAuthorSpan, hfl, hll]
    | cons l0 lrest =>
      cases f0 with
      | mk fdata =>
        cases fdata with
        | nil => simp [rbAuthorSpan, hfl, hll, String.ext_iff]
        | cons c crest => simp [rbAuthorSpan, hfl, hll, String.ext_iff]

theorem authorsChunks_none_iff (hp : List (String × String)) (n : Nat) :
    ∀ (as : List Person) (i : Nat),
      authorsChunks hp n i as = none ↔ ∃ a ∈ as, badPerson a := by
  intro as
  induction as with
  | nil => intro i; simp [authorsChunks]
  | cons a rest ih =>
    intro i
    cases hsp : authorSpan hp a with
    | none =>
      have hbad := (authorSpan_none_iff hp a).mp hsp
      simp only [authorsChunks, hsp, Option.bind]
      exact iff_of_true rfl ⟨a, List.mem_cons_self a rest, hbad⟩
    | some p =>
      have hgood : ¬ badPerson a := fun hb => by
        rw [(authorSpan_none_iff hp a).mpr hb] at hsp; exact Option.noConfusion hsp
      cases hrest : authorsChunks hp n (i + 1) rest with
      | none =>
        simp only [authorsChunks, hsp, hrest]
        refine iff_of_true rfl ?_
        obtain ⟨b, hb, hbad⟩ := (ih (i + 1)).mp hrest
        exact ⟨b, List.mem_cons_of_mem a hb, hbad⟩
      | some q =>
        simp only [authorsChunks, hsp, hrest]
        constructor
        · intro hcontra; exact absurd hcontra (by simp)
        · rintro ⟨b, hb, hbad⟩
          rcases List.mem_cons.mp hb with hba | hbr
          · exact absurd (hba ▸ hbad) hgood
          · exact absurd ((ih (i + 1)).mpr ⟨b, hbr, hbad⟩)
              (by rw [hrest]; simp)

theorem rbChunks_none_iff (n : Nat) :
    ∀ (as : List Person) (i : Nat),
      rbChunks n i as = none ↔ ∃ a ∈ as, badPerson a := by
  intro as
  induction as with
  | nil => intro i; simp [rbChunks]
  | cons a rest ih =>
    intro i
    cases hsp : rbAuthorSpan a with
    | none =>
      have hbad := (rbAuthorSpan_none_iff a).mp hsp
      simp only [rbChunks, hsp, Option.bind]
      exact iff_of_true rfl ⟨a, List.mem_cons_self a rest, hbad⟩
    | some p =>
      have hgood : ¬ badPerson a := fun hb => by
        rw [(rbAuthorSpan_none_iff a).mpr hb] at hsp; exact Option.noConfusion hsp
      cases hrest : rbChunks n (i + 1) rest with
      | none =>
        simp only [rbChunks, hsp, hrest]
        refine iff_of_true rfl ?_
        obtain ⟨b, hb, hbad⟩ := (ih (i + 1)).mp hrest
        exact ⟨b, List.mem_cons_of_mem a hb, hbad⟩
      | some q =>
        simp only [rbChunks, hsp, hrest]
        constructor
        · intro hcontra; exact absurd hcontra (by simp)
        · rintro ⟨b, hb, hbad⟩
          rcases List.mem_cons.mp hb with hba | hbr
          · exact absurd (hba ▸ hbad) hgood
          · exact absurd ((ih (i + 1)).mpr ⟨b, hbr, hbad⟩)
              (by rw [hrest]; simp)

/-- Claim C10: both author formatters have the implicit precondition that
every author's given-name and family-name lists are non-empty and the
first given-name token is a non-empty string; rendering raises (returns
`none`) exactly when some author violates it, and otherwise produces
the markup. -/
theorem c10_author_precondition (hp : List (String × String))
    (as : List Person) :
    (authorsRun hp as = none ↔ ∃ a ∈ as, badPerson a) ∧
    (rbAuthorsRun as = none ↔ ∃ a ∈ as, badPerson a) := by
  constructor
  · rw [← authorsChunks_none_iff hp as.length as 0]
    unfold authorsRun
    cases authorsChunks hp as.length 0 as <;> simp
  · rw [← rbChunks_none_iff as.length as 0]
    unfold rbAuthorsRun
    cases rbChunks as.length 0 as <;> simp

/-! ## Claim C2: the destructive initials truncation -/

theorem authorSpan_mutates (hp : List (String × String)) (a : Person)
    (nd : Node) (a' : Person) (h : authorSpan hp a = some (nd, a')) :
    a'.last = a.last ∧
      ∃ c, firstInitChar a = some c ∧ a'.first = [charStrip c ++ "."] := by
  cases hf : a.first.head? with
  | none => simp [authorSpan, hf] at h
  | some f0 =>
    cases hl : a.last.head? with
    | none => simp [authorSpan, hf, hl] at h
    | some l0 =>
      cases hc : f0.data.head? with
      | none => simp [authorSpan, hf, hl, hc] at h
      | some c =>
        rw [authorSpan_eq hp a f0 l0 c hf hl hc] at h
        simp only [Option.some.injEq, Prod.mk.injEq] at h
        obtain ⟨_, ha'⟩ := h
        subst ha'
        exact ⟨rfl, c, by simp [firstInitChar, hf, hc], rfl⟩

theorem authorsChunks_mutation (hp : List (String × String)) (n : Nat) :
    ∀ (as : List Person) (i : Nat) (ns : List Node) (ps : List Person),
      authorsChunks hp n i as = some (ns, ps) →
      List.Forall₂ (fun a a' => a'.last = a.last ∧
        ∃ c, firstInitChar a = some c ∧ a'.first = [charStrip c ++ "."]) as ps := by
  intro as
  induction as with
  | nil =>
    intro i ns ps h
    simp only [authorsChunks, Option.some.injEq, Prod.mk.injEq] at h
    rw [← h.2]
    exact List.Forall₂.nil
  | cons a rest ih =>
    intro i ns ps h
    cases hsp : authorSpan hp a with
    | none => simp [authorsChunks, hsp] at h
    | some p =>
      obtain ⟨nd, a'⟩ := p
      cases hrest : authorsChunks hp n (i + 1) rest with
      | none => simp [authorsChunks, hsp, hrest] at h
      | some q =>
        obtain ⟨ns', rest'⟩ := q
        simp [authorsChunks, hsp, hrest] at h
        rw [← h.2]
        exact List.Forall₂.cons (authorSpan_mutates hp a nd a' hsp)
          (ih (i + 1) ns' rest' hrest)

/-- Claim C2 (amended: the source does mutate): the author formatter
writes the collapsed initial back into each `Person` it renders — after
a successful render every author's given-name list has been replaced by
the single token "initial.", their family names kept — so a second
render of the same record set need not be byte-identical to the first
(the counterexample shows the highlight marker is lost). -/
theorem c2_author_mutation (hp : List (String × String)) (as : List Person)
    (o : Node) (ps : List Person) (h : authorsRun hp as = some (o, ps)) :
    List.Forall₂ (fun a a' => a'.last = a.last ∧
      ∃ c, firstInitChar a = some c ∧ a'.first = [charStrip c ++ "."]) as ps := by
  unfold authorsRun at h
  cases hch : authorsChunks hp as.length 0 as with
  | none => rw [hch] at h; exact Option.noConfusion h
  | some p =>
    obtain ⟨ns0, ps0⟩ := p
    rw [hch] at h
    simp only [Option.map_some', Option.some.injEq, Prod.mk.injEq] at h
    exact h.2 ▸ authorsChunks_mutation hp as.length as 0 ns0 ps0 hch

/-- Witness for C2 at the concrete highlighted author: its given names
are overwritten with ["R."]. -/
theorem c2_author_mutation_witness :
    List.Forall₂ (fun a a' => a'.last = a.last ∧
      ∃ c, firstInitChar a = some c ∧ a'.first = [charStrip c ++ "."])
      [⟨["Richard"], ["Mortier"]⟩] [(⟨["R."], ["Mortier"]⟩ : Person)] :=
  c2_author_mutation [] [⟨["Richard"], ["Mortier"]⟩]
    (Node.elem "span" [("class", "authors")]
      [Node.elem "span" [("class", "author highlight")] [Node.text "Mortier, R."]])
    [⟨["R."], ["Mortier"]⟩] rfl

/-! ## Claim C4: venue totality -/

/-- Claim C4 (amended: each recognized tag's venue field lookup must
resolve — `inproceedings` needs `booktitle`; `article` needs
`journaltitle` or `journal`; `online`/`report`/`misc` need `eprinttype`,
`institution` or `publisher`; `inbook` needs `volume` or `booktitle`;
`patent`, `unpublished` and unrecognized tags need nothing): under that
precondition venue resolution yields a (lead, venue, addendum) triple
without raising, and any unrecognized tag yields the sentinel
`"UNKNOWN VENUE"`. -/
theorem c4_venue_total_guarded (r : Record) (h : venueFieldsOk r) :
    (venueCore r).isSome = true ∧
    (r.entry_type ∉ knownEntryTypes →
      venueCore r = some (false, "UNKNOWN VENUE", "")) := by
  by_cases h1 : r.entry_type = "inproceedings"
  · simp only [venueFieldsOk, h1] at h
    constructor
    · simp [venueCore, h1, h]
    · intro hn; exact absurd (by simp [knownEntryTypes, h1]) hn
  by_cases h2 : r.entry_type = "article"
  · simp only [venueFieldsOk, h2] at h
    constructor
    · simp [venueCore, h2, h]
    · intro hn; exact absurd (by simp [knownEntryTypes, h2]) hn
  by_cases h3 : r.entry_type = "patent"
  · constructor
    · simp [venueCore, h3]
    · intro hn; exact absurd (by simp [knownEntryTypes, h3]) hn
  by_cases h4 : r.entry_type = "online"
  · simp only [venueFieldsOk, h4] at h
    constructor
    · simp [venueCore, h4, h]
    · intro hn; exact absurd (by simp [knownEntryTypes, h4]) hn
  by_cases h5 : r.entry_type = "report"
  · simp only [venueFieldsOk, h5] at h
    constructor
    · simp [venueCore, h5, h]
    · intro hn; exact absurd (by simp [knownEntryTypes, h5]) hn
  by_cases h6 : r.entry_type = "misc"
  · simp only [venueFieldsOk, h6] at h
    constructor
    · simp [venueCore, h6, h]
    · intro hn; exact absurd (by simp [knownEntryTypes, h6]) hn
  by_cases h7 : r.entry_type = "inbook"
  · simp only [venueFieldsOk, h7] at h
    constructor
    · simp [venueCore, h7, h]
    · intro hn; exact absurd (by simp [knownEntryTypes, h7]) hn
  by_cases h8 : r.entry_type = "unpublished"
  · constructor
    · simp [venueCore, h8]
    · intro hn; exact absurd (by simp [knownEntryTypes, h8]) hn
  · have hv : venueCore r = some (false, "UNKNOWN VENUE", "") := by
      unfold venueCore
      split <;> simp_all
    exact ⟨by simp [hv], fun _ => hv⟩

/-- Witness for C4 at a record with the unrecognized tag "book". -/
theorem c4_venue_total_guarded_witness :
    (venueCore { emptyRecord with entry_type := "book" }).isSome = true ∧
    (({ emptyRecord with entry_type := "book" } : Record).entry_type ∉ knownEntryTypes →
      venueCore { emptyRecord with entry_type := "book" }
        = some (false, "UNKNOWN VENUE", "")) :=
  c4_venue_total_guarded { emptyRecord with entry_type := "book" } trivial

/-! ## Claim C8: note collapsing -/

theorem hasDD_cons (c : Char) (l : List Char) (h : hasDD l = true) :
    hasDD (c :: l) = true := by
  rw [hasDD.eq_def]
  split <;> simp_all

theorem hasDD_append_left (l m : List Char) (h : hasDD l = true) :
    hasDD (l ++ m) = true := by
  induction l using hasDD.induct with
  | case1 x => exact rfl
  | case2 c rest hne ih =>
    rcases rest with _ | ⟨c2, rrest⟩
    · simp [hasDD] at h
    · have hrest : hasDD (c2 :: rrest) = true := by
        rw [hasDD.eq_def] at h
        split at h <;> simp_all
      exact hasDD_cons c _ (ih hrest)
  | case3 => simp [hasDD] at h

theorem hasDD_last_dot (l m : List Char) (h : l.getLast? = some '.') :
    hasDD (l ++ '.' :: m) = true := by
  induction l with
  | nil => simp at h
  | cons c rest ih =>
    rcases rest with _ | ⟨c2, rrest⟩
    · simp at h
      subst h
      exact rfl
    · have : (c2 :: rrest).getLast? = some '.' := by
        rw [← h]; simp
      exact hasDD_cons c _ (ih this)

theorem collapseDots_append (l m : List Char) (h1 : hasDD l = false)
    (h2 : l.getLast? ≠ some '.') :
    collapseDots (l ++ m) = l ++ collapseDots m := by
  induction l using collapseDots.induct with
  | case1 x => simp [hasDD] at h1
  | case2 c rest hne ih =>
    rcases rest with _ | ⟨c2, rrest⟩
    · simp only [List.getLast?_singleton, ne_eq, Option.some.injEq] at h2
      simp only [List.cons_append, List.nil_append]
      rw [collapseDots.eq_def]
      split
      · simp_all
      · rename_i c' rest' heq
        injection heq with e1 e2
        subst e1
        rw [e2]
      · simp_all
    · have hr1 : hasDD (c2 :: rrest) = false := by
        rw [hasDD.eq_def] at h1
        split at h1 <;> simp_all
      have hr2 : (c2 :: rrest).getLast? ≠ some '.' := by
        rw [show (c :: c2 :: rrest).getLast? = (c2 :: rrest).getLast? by simp] at h2
        exact h2
      have hcc2 : ¬ (c = '.' ∧ c2 = '.') := by
        intro ⟨hc, hc2⟩
        subst hc; subst hc2
        simp [hasDD] at h1
      simp only [List.cons_append]
      rw [collapseDots.eq_def]
      split
      · rename_i heq
        injection heq with e1 e2
        injection e2 with e2 e3
        exact absurd ⟨e1, e2⟩ hcc2
      · rename_i c' rest' heq
        injection heq with e1 e2
        subst e1
        rw [← e2]
        have hih := ih hr1 hr2
        simp only [List.cons_append] at hih ⊢
        rw [hih]
      · rename_i heq
        exact absurd heq (by simp)
  | case3 => simp

theorem collapseDots_terminal (t : List Char) (h : hasDD t = false) :
    collapseDots (t ++ ['.', ' ']) =
      (if t.getLast? = some '.' then t ++ [' '] else t ++ ['.', ' ']) := by
  by_cases hlast : t.getLast? = some '.'
  · rw [if_pos hlast]
    have htne : t ≠ [] := by
      intro h0; rw [h0] at hlast; simp at hlast
    have hgl : t.getLast htne = '.' := by
      have hq := List.getLast?_eq_getLast t htne
      rw [hq] at hlast
      exact Option.some.inj hlast
    have hu : t.dropLast ++ ['.'] = t := by
      have hq := List.dropLast_append_getLast htne
      rw [hgl] at hq
      exact hq
    have hu1 : hasDD t.dropLast = false := by
      cases hcon : hasDD t.dropLast with
      | false => rfl
      | true =>
        have hq := hasDD_append_left _ ['.'] hcon
        rw [hu] at hq
        rw [hq] at h
        exact Bool.noConfusion h
    have hu2 : t.dropLast.getLast? ≠ some '.' := by
      intro hud
      have hq := hasDD_last_dot t.dropLast [] hud
      rw [show t.dropLast ++ '.' :: [] = t from hu] at hq
      rw [hq] at h
      exact Bool.noConfusion h
    conv_lhs => rw [← hu, List.append_assoc]
    rw [collapseDots_append _ _ hu1 hu2]
    conv_rhs => rw [← hu, List.append_assoc]
    rfl
  · rw [if_neg hlast, collapseDots_append t _ h hlast]
    rfl

/-- Claim C8 (amended: the `replace` collapses every double period in the
trimmed-and-terminated text, not only a terminal doubling): for a note
value whose trimmed text contains no interior double period, the
rendered note text is the trimmed value with exactly one terminal
period and a trailing space — a trimmed value already ending in a
period gains no second one (the doubled terminal punctuation
collapses), and one not ending in a period gains exactly one. -/
theorem c8_note_collapse (v : String) (h : hasDD (pyStrip v).data = false) :
    noteText v = if (pyStrip v).data.getLast? = some '.'
      then pyStrip v ++ " " else pyStrip v ++ ". " := by
  have hdata : (pyStrip v ++ ". ").data = (pyStrip v).data ++ ['.', ' '] := by
    rw [String.data_append]
  unfold noteText
  rw [hdata, collapseDots_terminal _ h]
  by_cases hlast : (pyStrip v).data.getLast? = some '.'
  · rw [if_pos hlast, if_pos hlast]
    apply String.ext
    simp [String.data_append]
  · rw [if_neg hlast, if_neg hlast]
    apply String.ext
    simp [String.data_append]

/-- Witness for C8 at a note already ending in a period: the doubled
terminal punctuation collapses to one. -/
theorem c8_note_collapse_witness :
    noteText "Best paper." = if (pyStrip "Best paper.").data.getLast? = some '.'
      then pyStrip "Best paper." ++ " " else pyStrip "Best paper." ++ ". " :=
  c8_note_collapse "Best paper." (by decide)

/-! ## Claim C7: wrapper shape -/

theorem spanCount_append (xs ys : List Node) (k : String) :
    spanCount (xs ++ ys) k = spanCount xs k + spanCount ys k :=
  List.countP_append _ _ _

theorem spanCount_classSpan (c k : String) (cs : List Node) :
    spanCount [Node.elem "span" [("class", c)] cs] k = if c = k then 1 else 0 := by
  simp [spanCount, isClassSpan, List.countP_cons]

theorem spanCount_cons (x : Node) (xs : List Node) (k : String) :
    spanCount (x :: xs) k = spanCount xs k + (if isClassSpan k x then 1 else 0) :=
  List.countP_cons _ _ _

theorem isClassSpan_elem (c k : String) (cs : List Node) :
    isClassSpan k (Node.elem "span" [("class", c)] cs) = (c == k) := rfl

theorem spanCount_text (s : String) (k : String) :
    spanCount [Node.text s] k = 0 := rfl

theorem spanCount_asis (s : String) (k : String) :
    spanCount [Node.asis s] k = 0 := rfl

theorem spanCount_yearNodes (y k : String) :
    spanCount (yearNodes y) k = if "year" = k then 1 else 0 :=
  spanCount_classSpan "year" k _

theorem spanCount_titleNodes (t k : String) :
    spanCount (titleNodes t) k = if "title" = k then 1 else 0 :=
  spanCount_classSpan "title" k _

theorem spanCount_dateNodes (d k : String) :
    spanCount (dateNodes d) k = if "date" = k then 1 else 0 :=
  spanCount_classSpan "date" k _

theorem spanCount_noteNodes (r : Record) (k : String) :
    spanCount (noteNodes r) k = if "note" = k then 1 else 0 := by
  unfold noteNodes
  cases r.note <;> exact spanCount_classSpan "note" k _

theorem spanCount_doiNodes (r : Record) (k : String) :
    spanCount (doiNodes r) k = if "doi" = k then 1 else 0 := by
  unfold doiNodes
  cases r.doi <;> exact spanCount_classSpan "doi" k _

theorem spanCount_urlNodes (r : Record) (k : String) :
    spanCount (urlNodes r) k = if "url" = k then 1 else 0 := by
  unfold urlNodes
  cases r.url <;> exact spanCount_classSpan "url" k _

theorem spanCount_publisherNodes (r : Record) (k : String) :
    spanCount (publisherNodes r) k =
      if r.publisher.isSome then (if "publisher" = k then 1 else 0) else 0 := by
  unfold publisherNodes
  cases r.publisher with
  | none => rfl
  | some p => exact spanCount_classSpan "publisher" k _

theorem spanCount_venueNodes (r : Record) (vns : List Node) (k : String)
    (h : venueNodes r = some vns) :
    spanCount vns k = if "venue" = k then 1 else 0 := by
  unfold venueNodes at h
  cases hvc : venueCore r with
  | none => rw [hvc] at h; exact Option.noConfusion h
  | some t =>
    rw [hvc] at h
    simp only [Option.map_some', Option.some.injEq] at h
    rw [← h]
    rw [spanCount_append, spanCount_append]
    have h1 : spanCount (if t.1 then [Node.text "In "] else []) k = 0 := by
      split <;> rfl
    have h2 : spanCount (if t.2.2 ≠ "" then [Node.asis (t.2.2 ++ ". ")] else []) k = 0 := by
      split <;> rfl
    rw [h1, h2, spanCount_classSpan "venue" k _]
    omega

theorem authorsRun_shape (hp : List (String × String)) (as : List Person)
    (an : Node) (ps : List Person) (h : authorsRun hp as = some (an, ps)) :
    ∃ cs, an = Node.elem "span" [("class", "authors")] cs := by
  unfold authorsRun at h
  cases hch : authorsChunks hp as.length 0 as with
  | none => rw [hch] at h; exact Option.noConfusion h
  | some p =>
    rw [hch] at h
    simp only [Option.map_some', Option.some.injEq, Prod.mk.injEq] at h
    exact ⟨p.1, h.1.symm⟩


/-- Claim C7 (amended: eight of the nine elements always emit their
wrapper — note, doi and url as an empty wrapper when the field is
absent — but the publisher wrapper is omitted entirely when the
`publisher` field is absent): every successful render contains exactly
one wrapper span of each of the other eight classes, and a publisher
span exactly when the field is present. -/
theorem c7_wrapper_shape (hp : List (String × String)) (r : Record)
    (ns : List Node) (r' : Record) (h : renderEntry hp r = some (ns, r')) :
    spanCount ns "authors" = 1 ∧ spanCount ns "year" = 1 ∧
    spanCount ns "title" = 1 ∧ spanCount ns "venue" = 1 ∧
    spanCount ns "date" = 1 ∧ spanCount ns "note" = 1 ∧
    spanCount ns "doi" = 1 ∧ spanCount ns "url" = 1 ∧
    spanCount ns "publisher" = (if r.publisher.isSome then 1 else 0) := by
  cases hpd : parse_date r with
  | none => simp [renderEntry, hpd] at h
  | some dym =>
    obtain ⟨d, y, m⟩ := dym
    cases hau : r.author with
    | none => simp [renderEntry, hpd, hau] at h
    | some as =>
      cases har : authorsRun hp as with
      | none => simp [renderEntry, hpd, hau, har] at h
      | some p =>
        obtain ⟨an, as'⟩ := p
        obtain ⟨cs0, hcs0⟩ := authorsRun_shape hp as an as' har
        cases hti : r.title with
        | none => simp [renderEntry, hpd, hau, har, hti] at h
        | some t =>
          cases hvn : venueNodes r with
          | none => simp [renderEntry, hpd, hau, har, hti, hvn] at h
          | some vns =>
            simp [renderEntry, hpd, hau, har, hti, hvn] at h
            obtain ⟨hns, _⟩ := h
            rw [← hns, hcs0]
            have hv := spanCount_venueNodes r vns
            refine ⟨?_, ?_, ?_, ?_, ?_, ?_, ?_, ?_, ?_⟩ <;>
              simp [spanCount_append, spanCount_cons, isClassSpan_elem,
                spanCount_classSpan,
                spanCount_yearNodes, spanCount_titleNodes, spanCount_dateNodes,
                spanCount_noteNodes, spanCount_doiNodes, spanCount_urlNodes,
                spanCount_publisherNodes, hv _ hvn]

/-- Witness for C7 at a concrete journal article with a publisher. -/
theorem c7_wrapper_shape_witness :
    spanCount c7ns "authors" = 1 ∧ spanCount c7ns "year" = 1 ∧
    spanCount c7ns "title" = 1 ∧ spanCount c7ns "venue" = 1 ∧
    spanCount c7ns "date" = 1 ∧ spanCount c7ns "note" = 1 ∧
    spanCount c7ns "doi" = 1 ∧ spanCount c7ns "url" = 1 ∧
    spanCount c7ns "publisher" = (if witRecord.publisher.isSome then 1 else 0) :=
  c7_wrapper_shape [] witRecord c7ns
    { witRecord with author := some [⟨["A."], ["Lovelace"]⟩] } rfl

/-! ## Claim C1: the separator rule -/

theorem authorsChunks_decomp (hp : List (String × String)) (n : Nat) :
    ∀ (as : List Person) (i : Nat) (ns : List Node) (ps : List Person),
      authorsChunks hp n i as = some (ns, ps) → as ≠ [] →
      ∃ pre k cs,
        ns = pre ++ sepNodes (i + (as.length - 1)) n
          ++ [Node.elem "span" [("class", k)] cs] ∧
        topTexts pre = (List.range' i (as.length - 1)).filterMap
          (fun j => if j = 0 then none
            else if j + 1 = n then some (Node.text " and ")
            else some (Node.text ", ")) := by
  intro as
  induction as with
  | nil => intro i ns ps _ hne; exact absurd rfl hne
  | cons a rest ih =>
    intro i ns ps h _
    cases hsp : authorSpan hp a with
    | none => simp [authorsChunks, hsp] at h
    | some p =>
      obtain ⟨nd, a'⟩ := p
      obtain ⟨k0, cs0, hnd⟩ : ∃ k0 cs0, nd = Node.elem "span" [("class", k0)] cs0 := by
        cases hf : a.first.head? with
        | none => simp [authorSpan, hf] at hsp
        | some f0 =>
          cases hl : a.last.head? with
          | none => simp [authorSpan, hf, hl] at hsp
          | some l0 =>
            cases hc : f0.data.head? with
            | none => simp [authorSpan, hf, hl, hc] at hsp
            | some c =>
              rw [authorSpan_eq hp a f0 l0 c hf hl hc] at hsp
              simp only [Option.some.injEq, Prod.mk.injEq] at hsp
              exact ⟨_, _, hsp.1.symm⟩
      cases hrest : authorsChunks hp n (i + 1) rest with
      | none => simp [authorsChunks, hsp, hrest] at h
      | some q =>
        obtain ⟨ns', rest'⟩ := q
        simp [authorsChunks, hsp, hrest] at h
        obtain ⟨hns, _⟩ := h
        rcases rest with _ | ⟨b, brest⟩
        · simp only [authorsChunks, Option.some.injEq, Prod.mk.injEq] at hrest
          refine ⟨[], k0, cs0, ?_, ?_⟩
          · rw [← hns, ← hrest.1, hnd]
            simp
          · rfl
        · obtain ⟨pre', k', cs', hdec, htex⟩ :=
            ih (i + 1) ns' rest' hrest (by simp)
          refine ⟨sepNodes i n ++ [nd] ++ pre', k', cs', ?_, ?_⟩
          · rw [← hns, hdec]
            have harith : i + 1 + ((b :: brest).length - 1)
                = i + ((b :: brest).length + 1 - 1) := by
              simp
              omega
            rw [harith]
            simp [List.append_assoc]
          · rw [topTexts_append, topTexts_append, topTexts_sepNodes,
              hnd, topTexts_elem, htex]
            have hlen : (a :: b :: brest).length - 1 = ((b :: brest).length - 1) + 1 := by
              simp
            rw [hlen, List.range'_succ, List.filterMap_cons]
            by_cases h0 : i = 0
            · simp [sepNodes, h0]
            · by_cases h1 : i + 1 = n
              · simp [sepNodes, h0, h1]
              · simp [sepNodes, h0, h1]

theorem sep_filterMap_replicate :
    ∀ (m i n : Nat), 1 ≤ i → i + m < n →
      (List.range' i m).filterMap
        (fun j => if j = 0 then none
          else if j + 1 = n then some (Node.text " and ")
          else some (Node.text ", "))
        = List.replicate m (Node.text ", ") := by
  intro m
  induction m with
  | zero => intro i n _ _; rfl
  | succ m ih =>
    intro i n hi hlt
    rw [List.range'_succ, List.filterMap_cons]
    have h0 : ¬ i = 0 := by omega
    have h1 : ¬ i + 1 = n := by omega
    simp only [h0, h1, if_false, ite_false]
    rw [ih (i + 1) n (by omega) (by omega)]
    rfl

/-- Claim C1 (amended to `bib2html.py`'s author renderer; `render_bibs.py`
deviates, see the counterexample): in a successfully rendered authors
span, a single author is preceded by no separator text; with N ≥ 2
authors the children decompose as a prefix, the `" and "` separator
text immediately before the final author span, and the prefix contains
exactly N−2 separator texts, all equal to `", "` — so there are exactly
N−1 separators of which exactly one is `" and "`. -/
theorem c1_separator_rule (hp : List (String × String)) (as : List Person)
    (nd : Node) (ps : List Person) (h : authorsRun hp as = some (nd, ps)) :
    (as.length = 1 → topTexts (spanChildren nd) = []) ∧
    (2 ≤ as.length → ∃ pre k cs,
      spanChildren nd = pre ++ [Node.text " and ", Node.elem "span" [("class", k)] cs] ∧
      topTexts pre = List.replicate (as.length - 2) (Node.text ", ")) := by
  unfold authorsRun at h
  cases hch : authorsChunks hp as.length 0 as with
  | none => rw [hch] at h; exact Option.noConfusion h
  | some p =>
    obtain ⟨ns0, ps0⟩ := p
    rw [hch] at h
    simp only [Option.map_some', Option.some.injEq, Prod.mk.injEq] at h
    obtain ⟨hnd, hps⟩ := h
    have hch1 : spanChildren nd = ns0 := by rw [← hnd]; rfl
    constructor
    · intro h1
      have hne : as ≠ [] := by intro h0; rw [h0] at h1; simp at h1
      obtain ⟨pre, k, cs, hdec, htex⟩ :=
        authorsChunks_decomp hp as.length as 0 ns0 ps0 hch hne
      rw [h1] at hdec htex
      rw [hch1, hdec, topTexts_append, topTexts_append, htex, topTexts_elem]
      simp [sepNodes, topTexts]
    · intro h2
      have hne : as ≠ [] := by intro h0; rw [h0] at h2; simp at h2
      obtain ⟨pre, k, cs, hdec, htex⟩ :=
        authorsChunks_decomp hp as.length as 0 ns0 ps0 hch hne
      refine ⟨pre, k, cs, ?_, ?_⟩
      · rw [hch1, hdec]
        have hsep : sepNodes (0 + (as.length - 1)) as.length = [Node.text " and "] := by
          unfold sepNodes
          rw [if_neg (by omega), if_pos (by omega)]
        rw [hsep]
        simp
      · rw [htex]
        have hsz : as.length - 1 = (as.length - 2) + 1 := by omega
        rw [hsz, List.range'_succ, List.filterMap_cons]
        have hrep := sep_filterMap_replicate (as.length - 2) (0 + 1) as.length
          (by omega) (by omega)
        simp [hrep]

/-- Witness for C1 at a concrete two-author list. -/
theorem c1_separator_rule_witness :
    (([⟨["Ada"], ["Lovelace"]⟩, ⟨["Grace"], ["Hopper"]⟩] : List Person).length = 1 →
      topTexts (spanChildren (Node.elem "span" [("class", "authors")]
        [Node.elem "span" [("class", "author")] [Node.text "Lovelace, A."],
         Node.text " and ",
         Node.elem "span" [("class", "author")] [Node.text "Hopper, G."]])) = []) ∧
    (2 ≤ ([⟨["Ada"], ["Lovelace"]⟩, ⟨["Grace"], ["Hopper"]⟩] : List Person).length →
      ∃ pre k cs,
        spanChildren (Node.elem "span" [("class", "authors")]
          [Node.elem "span" [("class", "author")] [Node.text "Lovelace, A."],
           Node.text " and ",
           Node.elem "span" [("class", "author")] [Node.text "Hopper, G."]])
          = pre ++ [Node.text " and ", Node.elem "span" [("class", k)] cs] ∧
        topTexts pre = List.replicate
          (([⟨["Ada"], ["Lovelace"]⟩, ⟨["Grace"], ["Hopper"]⟩] : List Person).length - 2)
          (Node.text ", ")) :=
  c1_separator_rule [] [⟨["Ada"], ["Lovelace"]⟩, ⟨["Grace"], ["Hopper"]⟩]
    (Node.elem "span" [("class", "authors")]
      [Node.elem "span" [("class", "author")] [Node.text "Lovelace, A."],
       Node.text " and ",
       Node.elem "span" [("class", "author")] [Node.text "Hopper, G."]])
    [⟨["A."], ["Lovelace"]⟩, ⟨["G."], ["Hopper"]⟩] rfl
